import Mathlib

/-!
Verification of the DietPrompt engine (src/js/engine.ts).

The engine is embedded shallowly:

* a JavaScript string is a `List Char`;
* a runtime JavaScript value that may be `undefined`, `null`, a string or a
  number (the shapes exercised by the validation code) is a `JSValue`;
* the `CreateCompletionRequest` object is a structure holding its `model` and
  `prompt` fields (the only fields the engine reads);
* the tiktoken library is an external collaborator: `encoding_for_model` is a
  parameter `encFor : EncFor` mapping a model name to `some` encoder when the
  model is supported and to `Option.none` when the lookup throws, and the
  per-object encoding state is tracked by the `encodingFreed` flag of
  `BasePrompt` (the `free` call releases it; using a freed encoding fails);
* methods that can throw return `Except String`, and stateful methods return
  the updated object alongside their result.
-/

set_option autoImplicit false

/-- Runtime shape of the `prompt` and `model` fields of a request: the engine
distinguishes `undefined`, `null`, strings and other primitives (a number is
the spec's example of a non-string prompt). -/
inductive JSValue where
  | undefined
  | null
  | str (s : List Char)
  | num (n : Int)
deriving DecidableEq

/-- The two fields of the OpenAI `CreateCompletionRequest` that the engine
reads and writes. -/
structure CreateCompletionRequest where
  model : JSValue
  prompt : JSValue
deriving DecidableEq

/-- `CompressionType = "none" | "default"` from the source. -/
inductive CompressionType where
  | none
  | default
deriving DecidableEq

deriving instance DecidableEq for Except

/-- The tiktoken `encoding_for_model` capability: `some` encoder for a
supported model name, `Option.none` when the library throws on an unknown
model. An encoder maps text to the sequence of integer token ids. -/
abbrev EncFor := List Char → Option (List Char → List Nat)

/-- Lower-cased characters of the literal pattern of `/do not/gi`. -/
def doNotPattern : List Char := ['d', 'o', ' ', 'n', 'o', 't']

/-- The characters of the replacement string in
`prompt.replace(/do not/gi, "don't")`. -/
def dontReplacement : List Char := ['d', 'o', 'n', '\'', 't']

/-- `prompt.replace(/do not/gi, "don't")`: leftmost, global, non-overlapping,
case-insensitive replacement of the six-character phrase "do not"; scanning
resumes after the inserted replacement. -/
def replaceDoNot : List Char → List Char
  | c1 :: c2 :: c3 :: c4 :: c5 :: c6 :: rest =>
    if [c1, c2, c3, c4, c5, c6].map Char.toLower = doNotPattern then
      dontReplacement ++ replaceDoNot rest
    else
      c1 :: replaceDoNot (c2 :: c3 :: c4 :: c5 :: c6 :: rest)
  | l => l

/-- `const PUNCTUATION = [".", ",", "'", '"', "!", "?", ";", ":", "-"]`. -/
def PUNCTUATION : List Char := ['.', ',', '\'', '"', '!', '?', ';', ':', '-']

/-- `prompt.split("").filter((char) => !PUNCTUATION.includes(char)).join("")`. -/
def stripPunctuation (prompt : List Char) : List Char :=
  prompt.filter (fun char => !(PUNCTUATION.contains char))

/-- `prompt.split(" ")` with JavaScript semantics: splitting the empty string
yields `[""]`, and consecutive spaces yield empty-string words. -/
def splitOnSpace : List Char → List (List Char)
  | [] => [[]]
  | c :: cs =>
    if c = ' ' then
      [] :: splitOnSpace cs
    else
      match splitOnSpace cs with
      | w :: ws => (c :: w) :: ws
      | [] => [[c]]

/-- `words.join(" ")` with JavaScript semantics. -/
def joinSpace : List (List Char) → List Char
  | [] => []
  | [w] => w
  | w :: ws => w ++ ' ' :: joinSpace ws

/-- `prompt.split(" ").filter((word) => !stopwords.english.includes(word)).join(" ")`,
parameterized by the stopword list `sw` (the `stopwords.english` data module is
not part of the engine source). -/
def removeStopwords (sw : List (List Char)) (prompt : List Char) : List Char :=
  joinSpace ((splitOnSpace prompt).filter (fun word => !(sw.contains word)))

/-- `compressPromptDefault` from the source: contraction replacement, then
punctuation stripping, then stopword removal, in that order. -/
def compressPromptDefault (sw : List (List Char)) (prompt : List Char) : List Char :=
  removeStopwords sw (stripPunctuation (replaceDoNot prompt))

/-- `compressPromptDefault` lifted to `String`, for the claims phrased over
strings. -/
def compressPromptDefaultS (sw : List String) (t : String) : String :=
  String.mk (compressPromptDefault (sw.map String.data) t.data)

/-- Modelled from the spec: the English stopword list `stopwords.english` is
imported from "./data", a data module that is not part of the engine source.
The spec describes it as a static set of lowercase word strings and names
"this", "is", "an", "to", "out" and "the" as members (sections 8 and the
glossary); this list contains those words plus a few common fillers. Only
membership of the named words matters for the concrete evaluations below. -/
def stopwordsEnglish : List String :=
  ["the", "this", "is", "an", "a", "to", "out", "of", "and", "it", "in",
   "on", "for", "with", "that"]

/-- Character-list view of the modelled stopword list. -/
def stopwordsEnglishC : List (List Char) := stopwordsEnglish.map String.data

/-- The `BasePrompt` class: it stores (a reference to) the request object and
the tiktoken encoding acquired in its constructor via
`encoding_for_model(request.model)`. The encoding itself is determined by
`request.model` (which is never written after construction), so the embedding
keeps only its liveness: `encodingFreed` is true once `free()` has run. -/
structure BasePrompt where
  request : CreateCompletionRequest
  encodingFreed : Bool
deriving DecidableEq

/-- The `BasePrompt` constructor: `encoding_for_model(request.model)` throws
when the model is not a string naming a supported model; otherwise the object
starts with a live encoding. -/
def BasePrompt.make (encFor : EncFor) (request : CreateCompletionRequest) :
    Except String BasePrompt :=
  match request.model with
  | JSValue.str m =>
    match encFor m with
    | some _ => Except.ok ⟨request, false⟩
    | Option.none => Except.error "Unknown model"
  | _ => Except.error "Unknown model"

/-- `getPrompt()` returns `this.request.prompt`. -/
def BasePrompt.getPrompt (bp : BasePrompt) : JSValue :=
  bp.request.prompt

/-- `estimatedPromptCost()` returns `this.request.prompt.length`; on a
non-string prompt the JavaScript property access does not yield a number,
modelled as `Option.none`. -/
def BasePrompt.estimatedPromptCost (bp : BasePrompt) : Option Nat :=
  match bp.request.prompt with
  | JSValue.str s => some s.length
  | _ => Option.none

/-- `tokensCount()`: encodes `this.request.prompt` with the stored encoding and
frees the encoding before returning the length. Encoding with an already freed
encoding fails (the wasm call throws), and the updated object is returned
alongside the count. -/
def BasePrompt.tokensCount (encFor : EncFor) (bp : BasePrompt) :
    Except String (Nat × BasePrompt) :=
  if bp.encodingFreed then
    Except.error "tiktoken: encoding used after free"
  else
    match bp.request.model with
    | JSValue.str m =>
      match encFor m with
      | some enc =>
        match bp.request.prompt with
        | JSValue.str s => Except.ok ((enc s).length, { bp with encodingFreed := true })
        | _ => Except.error "tiktoken: prompt is not a string"
      | Option.none => Except.error "Unknown model"
    | _ => Except.error "Unknown model"

/-- `tokens()`: same as `tokensCount()` but returns the token sequence. -/
def BasePrompt.tokens (encFor : EncFor) (bp : BasePrompt) :
    Except String (List Nat × BasePrompt) :=
  if bp.encodingFreed then
    Except.error "tiktoken: encoding used after free"
  else
    match bp.request.model with
    | JSValue.str m =>
      match encFor m with
      | some enc =>
        match bp.request.prompt with
        | JSValue.str s => Except.ok (enc s, { bp with encodingFreed := true })
        | _ => Except.error "tiktoken: prompt is not a string"
      | Option.none => Except.error "Unknown model"
    | _ => Except.error "Unknown model"

/-- The `DietPromptCompletion` object after a successful construction (the
OpenAI configuration and client fields are external glue and are omitted). -/
structure DietPromptCompletion where
  openAICompletionRequest : CreateCompletionRequest
  compressionType : CompressionType
  originalPrompt : BasePrompt
  dietPrompt : Option BasePrompt
deriving DecidableEq

/-- `compressPrompt(prompt)`: a `switch` on `this.compressionType` whose only
case is `"default"`; with `compressionType = "none"` no case matches and the
method returns `undefined`, modelled as `Option.none`. -/
def DietPromptCompletion.compressPrompt (compressionType : CompressionType)
    (sw : List (List Char)) (prompt : List Char) : Option (List Char) :=
  match compressionType with
  | CompressionType.default => some (compressPromptDefault sw prompt)
  | CompressionType.none => Option.none

/-- The `DietPromptCompletion` constructor. The `undefined || null` chain in
the source only ever detects `undefined` (`null` is falsy), so the first check
fires exactly when `prompt` or `model` is `undefined`. `originalPrompt` is
bound to the request object itself; when compression is requested the
constructor then assigns `this.openAICompletionRequest.prompt = dietPrompt`,
mutating that same shared object, before binding `dietPrompt` to it — so the
final state has every view of the request carrying the compressed prompt
(`req2` below stands for the mutated shared object). -/
def DietPromptCompletion.construct (encFor : EncFor) (sw : List (List Char))
    (req : CreateCompletionRequest) (compressionType : CompressionType) :
    Except String DietPromptCompletion :=
  if req.prompt = JSValue.undefined ∨ req.model = JSValue.undefined then
    Except.error "Prompt and Model are required"
  else
    match req.prompt with
    | JSValue.str p =>
      match BasePrompt.make encFor req with
      | Except.error e => Except.error e
      | Except.ok _ =>
        match compressionType with
        | CompressionType.none =>
          Except.ok ⟨req, compressionType, ⟨req, false⟩, Option.none⟩
        | CompressionType.default =>
          -- this.compressPrompt(prompt) with compressionType = "default"
          let dietText := compressPromptDefault sw p
          let req2 : CreateCompletionRequest := { req with prompt := JSValue.str dietText }
          match BasePrompt.make encFor req2 with
          | Except.error e => Except.error e
          | Except.ok diet =>
            Except.ok ⟨req2, compressionType, ⟨req2, false⟩, some diet⟩
    | _ => Except.error "Prompt must be a string."

/-- Whether an `Except` computation succeeded. -/
def exceptIsOk {ε α : Type} : Except ε α → Bool
  | Except.ok _ => true
  | Except.error _ => false

/-- The prompt text held by the `originalPrompt` side of a construction
result, when construction succeeded. -/
def constructedOriginalPromptText (r : Except String DietPromptCompletion) :
    Option JSValue :=
  match r with
  | Except.ok c => some (BasePrompt.getPrompt c.originalPrompt)
  | Except.error _ => Option.none

/-- Model name used for the concrete evaluations. -/
def gptModel : List Char := "gpt-3.5-turbo".data

/-- A concrete encoder standing in for the tiktoken encoding: one token id per
character. -/
def encBase : List Char → List Nat := fun s => s.map Char.toNat

/-- A concrete `encoding_for_model` supporting only `gptModel`. -/
def encFor0 : EncFor :=
  fun m => if m = gptModel then some encBase else Option.none

/-- A concrete request whose prompt is untouched by default compression (no
punctuation, no stopwords, no "do not"). -/
def sampleReq : CreateCompletionRequest :=
  ⟨JSValue.str gptModel, JSValue.str ("Hello".data)⟩

/-- The object produced by constructing `sampleReq` with default compression
and an empty stopword list. -/
def sampleObj : DietPromptCompletion :=
  ⟨sampleReq, CompressionType.default, ⟨sampleReq, false⟩, some ⟨sampleReq, false⟩⟩

/-- A concrete request with prompt "hi". -/
def hiReq : CreateCompletionRequest :=
  ⟨JSValue.str gptModel, JSValue.str ("hi".data)⟩

/-- A freshly constructed `BasePrompt` over `hiReq` (live encoding). -/
def hiBp : BasePrompt := ⟨hiReq, false⟩

/-- A concrete request with the empty string as prompt. -/
def emptyReq : CreateCompletionRequest :=
  ⟨JSValue.str gptModel, JSValue.str []⟩

/-- The object produced by constructing `emptyReq` with default compression
and an empty stopword list (the empty prompt compresses to itself). -/
def emptyObj : DietPromptCompletion :=
  ⟨emptyReq, CompressionType.default, ⟨emptyReq, false⟩, some ⟨emptyReq, false⟩⟩

/-- The example prompt from the class documentation of the source. -/
def examplePrompt : List Char :=
  "Hey, this is an example request to test out DietPrompt.".data

/-- What default compression with the modelled English stopword list produces
on `examplePrompt`. -/
def exampleCompressed : List Char :=
  "Hey example request test DietPrompt".data

/-- The documentation-example request. -/
def exampleReq : CreateCompletionRequest :=
  ⟨JSValue.str gptModel, JSValue.str examplePrompt⟩

/-! ### Lemmas about the compression pipeline -/

theorem replaceDoNot_length_le (l : List Char) :
    (replaceDoNot l).length ≤ l.length := by
  induction l using replaceDoNot.induct with
  | case1 c1 c2 c3 c4 c5 c6 rest h ih =>
    rw [replaceDoNot, if_pos h]
    simp only [dontReplacement, List.length_append, List.length_cons,
      List.length_nil] at ih ⊢
    omega
  | case2 c1 c2 c3 c4 c5 c6 rest h ih =>
    rw [replaceDoNot, if_neg h]
    simp only [List.length_cons] at ih ⊢
    omega
  | case3 l h =>
    rw [replaceDoNot.eq_def]
    split
    · exact (h _ _ _ _ _ _ _ rfl).elim
    · exact Nat.le_refl _

theorem splitOnSpace_ne_nil (l : List Char) : splitOnSpace l ≠ [] := by
  cases l with
  | nil => simp [splitOnSpace]
  | cons c cs =>
    simp only [splitOnSpace]
    split
    · simp
    · split <;> simp

theorem joinSpace_cons_cons (w v : List Char) (ws : List (List Char)) :
    joinSpace (w :: v :: ws) = w ++ ' ' :: joinSpace (v :: ws) := rfl

theorem joinSpace_splitOnSpace (l : List Char) :
    joinSpace (splitOnSpace l) = l := by
  induction l with
  | nil => rfl
  | cons c cs ih =>
    obtain ⟨w, ws, hws⟩ := List.exists_cons_of_ne_nil (splitOnSpace_ne_nil cs)
    by_cases hc : c = ' '
    · subst hc
      rw [show splitOnSpace (' ' :: cs) = [] :: splitOnSpace cs from by
        simp [splitOnSpace]]
      rw [hws, joinSpace_cons_cons, ← hws, ih]
      rfl
    · rw [show splitOnSpace (c :: cs) = (c :: w) :: ws from by
        simp [splitOnSpace, hc, hws]]
      rw [hws] at ih
      cases ws with
      | nil =>
        exact congrArg (c :: ·) ih
      | cons v vs =>
        rw [joinSpace_cons_cons] at ih ⊢
        rw [List.cons_append, ih]

theorem joinSpace_length_succ (l : List (List Char)) (h : l ≠ []) :
    (joinSpace l).length + 1 = (l.map (fun w => w.length + 1)).sum := by
  induction l with
  | nil => exact absurd rfl h
  | cons w ws ih =>
    cases ws with
    | nil => simp [joinSpace]
    | cons v vs =>
      rw [joinSpace_cons_cons]
      have hrec := ih (by simp)
      simp only [List.map_cons, List.sum_cons] at hrec ⊢
      simp only [List.length_append, List.length_cons]
      omega

theorem joinSpace_filter_length_le (p : List Char → Bool) (l : List (List Char)) :
    (joinSpace (l.filter p)).length ≤ (joinSpace l).length := by
  cases hf : l.filter p with
  | nil => simp [joinSpace]
  | cons v vs =>
    have hl : l ≠ [] := by
      rintro rfl
      simp at hf
    have h1 := joinSpace_length_succ (l.filter p) (by simp [hf])
    have h2 := joinSpace_length_succ l hl
    have hsub : List.Sublist ((l.filter p).map (fun w => w.length + 1))
        (l.map (fun w => w.length + 1)) :=
      (List.filter_sublist l).map _
    have hsum := hsub.sum_le_sum (fun x _ => Nat.zero_le x)
    rw [hf] at hsum h1
    omega

theorem stripPunctuation_length_le (l : List Char) :
    (stripPunctuation l).length ≤ l.length :=
  List.length_filter_le _ l

theorem compressPromptDefault_length_le (sw : List (List Char)) (t : List Char) :
    (compressPromptDefault sw t).length ≤ t.length := by
  unfold compressPromptDefault removeStopwords
  calc (joinSpace ((splitOnSpace (stripPunctuation (replaceDoNot t))).filter
          (fun word => !(sw.contains word)))).length
      ≤ (joinSpace (splitOnSpace (stripPunctuation (replaceDoNot t)))).length :=
        joinSpace_filter_length_le _ _
    _ = (stripPunctuation (replaceDoNot t)).length := by
        rw [joinSpace_splitOnSpace]
    _ ≤ (replaceDoNot t).length := stripPunctuation_length_le _
    _ ≤ t.length := replaceDoNot_length_le t

theorem mem_joinSpace {c : Char} {l : List (List Char)}
    (h : c ∈ joinSpace l) : c = ' ' ∨ ∃ w ∈ l, c ∈ w := by
  induction l with
  | nil => simp [joinSpace] at h
  | cons w ws ih =>
    cases ws with
    | nil =>
      right
      exact ⟨w, by simp, h⟩
    | cons v vs =>
      rw [joinSpace_cons_cons] at h
      rcases List.mem_append.mp h with hw | hrest
      · right
        exact ⟨w, by simp, hw⟩
      · rcases List.mem_cons.mp hrest with hsp | hjoin
        · exact Or.inl hsp
        · rcases ih hjoin with hsp | ⟨u, hu, hcu⟩
          · exact Or.inl hsp
          · right
            exact ⟨u, by simp [hu], hcu⟩

theorem apostrophe_not_mem_compressed_do_not_go (sw : List (List Char)) :
    '\'' ∉ compressPromptDefault sw ("Do not go".data) := by
  intro h
  have hpre : stripPunctuation (replaceDoNot ("Do not go".data)) = ("dont go".data) := by
    decide
  unfold compressPromptDefault removeStopwords at h
  rw [hpre] at h
  rcases mem_joinSpace h with hsp | ⟨w, hw, hcw⟩
  · exact absurd hsp (by decide)
  · have hw2 : w ∈ splitOnSpace ("dont go".data) := (List.mem_filter.mp hw).1
    have hsp2 : splitOnSpace ("dont go".data) = [("dont".data), ("go".data)] := by
      decide
    rw [hsp2] at hw2
    rcases List.mem_cons.mp hw2 with rfl | hw3
    · exact absurd hcw (by decide)
    · rcases List.mem_cons.mp hw3 with rfl | hw4
      · exact absurd hcw (by decide)
      · simp at hw4

/-- C7: the output of `compressPromptDefault` on "Do not go" contains no
apostrophe, whatever the stopword list: the contraction replacement (step 1)
runs before punctuation stripping (step 2), so the apostrophe inserted by
rewriting "do not" to "don't" is removed again. -/
theorem c7_contraction_precedes_strip (sw : List (List Char)) :
    (compressPromptDefault sw ("Do not go".data)).contains '\'' = false := by
  cases hb : (compressPromptDefault sw ("Do not go".data)).contains '\'' with
  | false => rfl
  | true =>
    exact absurd (List.elem_iff.mp hb) (apostrophe_not_mem_compressed_do_not_go sw)

/-- C8: `compressPromptDefault` is deterministic. Its embedding is a pure
function of the stopword list and the input text alone — the source reads only
the immutable stopword and punctuation data, performs no I/O and touches no
mutable state — so two runs on the same text are byte-identical. -/
theorem c8_deterministic (sw : List String) (t : String) :
    compressPromptDefaultS sw t = compressPromptDefaultS sw t :=
  rfl

/-- C4: for every non-empty string t, default compression never grows the
character count: each stage (contraction replacement, punctuation filter,
stopword filter over the space-split words) only removes characters. -/
theorem c4_default_nonexpanding (sw : List String) (t : String) (_h : t ≠ "") :
    (compressPromptDefaultS sw t).length ≤ t.length := by
  show (compressPromptDefault (sw.map String.data) t.data).length ≤ t.data.length
  exact compressPromptDefault_length_le _ _

/-- Witness for C4 at a concrete non-empty string. -/
theorem c4_witness :
    (compressPromptDefaultS stopwordsEnglish "Hey").length ≤ ("Hey" : String).length :=
  c4_default_nonexpanding stopwordsEnglish "Hey" (by decide)

/-- C2 counterexample: with compressionType "none", `compressPrompt` falls off
the end of its switch and returns undefined, not the text unchanged. -/
theorem c2_counterexample :
    DietPromptCompletion.compressPrompt CompressionType.none [] ("a".data) = Option.none ∧
    ((DietPromptCompletion.compressPrompt CompressionType.none [] ("a".data)
        == some ("a".data)) = false) :=
  ⟨rfl, rfl⟩

/-- C2 (amended): under strategy none no compression is applied —
`compressPrompt` has no "none" case and returns undefined, and identity is
realized at the facade: constructing with strategy none leaves the request
prompt and the original side bound to the supplied text unchanged. -/
theorem c2_none_passthrough (encFor : EncFor) (sw : List (List Char))
    (p m : List Char) (e : List Char → List Nat) (he : encFor m = some e) :
    DietPromptCompletion.compressPrompt CompressionType.none sw p = Option.none ∧
    ∃ c, DietPromptCompletion.construct encFor sw ⟨JSValue.str m, JSValue.str p⟩
        CompressionType.none = Except.ok c ∧
      c.openAICompletionRequest.prompt = JSValue.str p ∧
      BasePrompt.getPrompt c.originalPrompt = JSValue.str p := by
  refine ⟨rfl, ⟨⟨JSValue.str m, JSValue.str p⟩, CompressionType.none,
    ⟨⟨JSValue.str m, JSValue.str p⟩, false⟩, Option.none⟩, ?_, rfl, rfl⟩
  simp [DietPromptCompletion.construct, BasePrompt.make, he]

/-- Witness for C2 (amended) at a concrete supported model and prompt. -/
theorem c2_witness :
    DietPromptCompletion.compressPrompt CompressionType.none [] ("ab".data) = Option.none ∧
    ∃ c, DietPromptCompletion.construct encFor0 [] ⟨JSValue.str gptModel, JSValue.str ("ab".data)⟩
        CompressionType.none = Except.ok c ∧
      c.openAICompletionRequest.prompt = JSValue.str ("ab".data) ∧
      BasePrompt.getPrompt c.originalPrompt = JSValue.str ("ab".data) :=
  c2_none_passthrough encFor0 [] ("ab".data) gptModel encBase rfl

/-- C3: the claim fails on the code. The tiktoken encoding is acquired in the
`BasePrompt` constructor (not within each call) and `tokensCount`/`tokens`
free it on their success path, so the first call releases the
constructor-acquired resource and a second call on the same object operates on
a freed resource and fails. -/
theorem c3_second_call_use_after_free :
    BasePrompt.tokensCount encFor0 hiBp = Except.ok (2, ⟨hiReq, true⟩) ∧
    BasePrompt.tokensCount encFor0 ⟨hiReq, true⟩ =
      Except.error "tiktoken: encoding used after free" ∧
    BasePrompt.tokens encFor0 ⟨hiReq, true⟩ =
      Except.error "tiktoken: encoding used after free" :=
  ⟨by decide, by decide, by decide⟩

/-- C1: the claim fails on the code. On the documentation example of the
source itself, the constructor reassigns the shared request's prompt to the
compressed text before building the compressed side, so after construction
`originalPrompt.getPrompt()` returns the compressed text, not the supplied
prompt. -/
theorem c1_original_side_overwritten :
    constructedOriginalPromptText (DietPromptCompletion.construct encFor0
        stopwordsEnglishC exampleReq CompressionType.default) =
      some (JSValue.str exampleCompressed) ∧
    ((exampleCompressed == examplePrompt) = false) :=
  ⟨by decide, by decide⟩

theorem make_ok {encFor : EncFor} {req : CreateCompletionRequest}
    {bp : BasePrompt} (h : BasePrompt.make encFor req = Except.ok bp) :
    bp = ⟨req, false⟩ := by
  unfold BasePrompt.make at h
  split at h
  · split at h
    · injection h with h2
      exact h2.symm
    · exact Except.noConfusion h
  · exact Except.noConfusion h

theorem construct_ok_inv {encFor : EncFor} {sw : List (List Char)}
    {req : CreateCompletionRequest} {ct : CompressionType} {c : DietPromptCompletion}
    (h : DietPromptCompletion.construct encFor sw req ct = Except.ok c) :
    ∃ p, req.prompt = JSValue.str p ∧
      ((ct = CompressionType.none ∧ c = ⟨req, ct, ⟨req, false⟩, Option.none⟩) ∨
       (ct = CompressionType.default ∧
         c = ⟨{ req with prompt := JSValue.str (compressPromptDefault sw p) }, ct,
              ⟨{ req with prompt := JSValue.str (compressPromptDefault sw p) }, false⟩,
              some ⟨{ req with prompt := JSValue.str (compressPromptDefault sw p) }, false⟩⟩)) := by
  unfold DietPromptCompletion.construct at h
  split at h
  · exact Except.noConfusion h
  · split at h
    · next p hp =>
      refine ⟨p, hp, ?_⟩
      split at h
      · exact Except.noConfusion h
      · split at h
        · left
          injection h with h2
          exact ⟨rfl, h2.symm⟩
        · dsimp only [] at h
          split at h
          · exact Except.noConfusion h
          · next diet hdiet =>
            right
            rw [make_ok hdiet] at h
            injection h with h2
            exact ⟨rfl, h2.symm⟩
    · exact Except.noConfusion h

/-- C5: for every successful construction, the compressed side exists iff the
strategy is not none: `dietPrompt` is defined when compressionType is
"default" and is undefined when compressionType is "none". -/
theorem c5_compressed_iff_not_none (encFor : EncFor) (sw : List (List Char))
    (req : CreateCompletionRequest) (ct : CompressionType) (c : DietPromptCompletion)
    (h : DietPromptCompletion.construct encFor sw req ct = Except.ok c) :
    (ct = CompressionType.default → c.dietPrompt.isSome = true) ∧
    (ct = CompressionType.none → c.dietPrompt = Option.none) := by
  obtain ⟨p, hp, hcase⟩ := construct_ok_inv h
  rcases hcase with ⟨hct, rfl⟩ | ⟨hct, rfl⟩
  · subst hct
    exact ⟨fun hne => CompressionType.noConfusion hne, fun _ => rfl⟩
  · subst hct
    exact ⟨fun _ => rfl, fun hne => CompressionType.noConfusion hne⟩

/-- Witness for C5: a concrete default-compression construction whose
compressed side is present. -/
theorem c5_witness : sampleObj.dietPrompt.isSome = true :=
  (c5_compressed_iff_not_none encFor0 [] sampleReq CompressionType.default
    sampleObj (by decide)).1 rfl

/-- C6 counterexample: the claim's "construction-time failure when prompt is
not a non-empty string" fails on the code — the constructor never checks for
emptiness, so constructing with the empty-string prompt succeeds. -/
theorem c6_counterexample :
    exceptIsOk (DietPromptCompletion.construct encFor0 [] emptyReq
      CompressionType.default) = true ∧
    DietPromptCompletion.construct encFor0 [] emptyReq CompressionType.default =
      Except.ok emptyObj :=
  ⟨by decide, by decide⟩

/-- C6 (amended): construction fails with "Prompt and Model are required" when
prompt or model is undefined, and with "Prompt must be a string." when prompt
is present (null or a number) but not a string; emptiness of the prompt is
never checked, so for a string prompt — including the empty string — and a
model supported by the tokenizer, construction succeeds. -/
theorem c6_validation (encFor : EncFor) (sw : List (List Char))
    (req : CreateCompletionRequest) (ct : CompressionType) :
    ((req.prompt = JSValue.undefined ∨ req.model = JSValue.undefined) →
      DietPromptCompletion.construct encFor sw req ct =
        Except.error "Prompt and Model are required") ∧
    ((req.prompt = JSValue.null ∨ (∃ n, req.prompt = JSValue.num n)) →
      req.model ≠ JSValue.undefined →
      DietPromptCompletion.construct encFor sw req ct =
        Except.error "Prompt must be a string.") ∧
    (∀ p m e, req.prompt = JSValue.str p → req.model = JSValue.str m →
      encFor m = some e →
      exceptIsOk (DietPromptCompletion.construct encFor sw req ct) = true) := by
  obtain ⟨mo, pr⟩ := req
  refine ⟨?_, ?_, ?_⟩
  · intro hmiss
    unfold DietPromptCompletion.construct
    rw [if_pos hmiss]
  · intro hpr hmo
    have hcond : ¬(pr = JSValue.undefined ∨ mo = JSValue.undefined) := by
      rcases hpr with h1 | ⟨n, h1⟩ <;> subst h1 <;> simp [hmo]
    rcases hpr with h1 | ⟨n, h1⟩ <;> subst h1 <;>
      simp [DietPromptCompletion.construct, hcond] <;> exact hmo
  · intro p m e hp hm he
    subst hp
    subst hm
    cases ct <;>
      simp [DietPromptCompletion.construct, BasePrompt.make, he, exceptIsOk]

/-- Witness for C6 (amended): constructing with an undefined model fails with
the required-fields error. -/
theorem c6_witness :
    DietPromptCompletion.construct encFor0 []
      ⟨JSValue.undefined, JSValue.str ("hi".data)⟩ CompressionType.default =
      Except.error "Prompt and Model are required" :=
  (c6_validation encFor0 [] ⟨JSValue.undefined, JSValue.str ("hi".data)⟩
    CompressionType.default).1 (Or.inr rfl)

/-- C9: after a successful construction with strategy "default", the original
and compressed sides hold the same (mutated) request object, so their
`getPrompt()` results agree — both are the compressed text — and their
`tokensCount()` and `estimatedPromptCost()` results are equal. -/
theorem c9_shared_request (encFor : EncFor) (sw : List (List Char))
    (req : CreateCompletionRequest) (c : DietPromptCompletion)
    (h : DietPromptCompletion.construct encFor sw req CompressionType.default =
      Except.ok c) :
    ∃ d, c.dietPrompt = some d ∧
      d.request = c.originalPrompt.request ∧
      BasePrompt.getPrompt d = BasePrompt.getPrompt c.originalPrompt ∧
      (∃ p, req.prompt = JSValue.str p ∧
        BasePrompt.getPrompt c.originalPrompt =
          JSValue.str (compressPromptDefault sw p)) ∧
      BasePrompt.tokensCount encFor d = BasePrompt.tokensCount encFor c.originalPrompt ∧
      BasePrompt.estimatedPromptCost d = BasePrompt.estimatedPromptCost c.originalPrompt := by
  obtain ⟨p, hp, hcase⟩ := construct_ok_inv h
  rcases hcase with ⟨hct, _⟩ | ⟨_, rfl⟩
  · exact CompressionType.noConfusion hct
  · exact ⟨_, rfl, rfl, rfl, ⟨p, hp, rfl⟩, rfl, rfl⟩

/-- Witness for C9 at a concrete default-compression construction. -/
theorem c9_witness :
    ∃ d, sampleObj.dietPrompt = some d ∧
      d.request = sampleObj.originalPrompt.request ∧
      BasePrompt.getPrompt d = BasePrompt.getPrompt sampleObj.originalPrompt ∧
      (∃ p, sampleReq.prompt = JSValue.str p ∧
        BasePrompt.getPrompt sampleObj.originalPrompt =
          JSValue.str (compressPromptDefault [] p)) ∧
      BasePrompt.tokensCount encFor0 d =
        BasePrompt.tokensCount encFor0 sampleObj.originalPrompt ∧
      BasePrompt.estimatedPromptCost d =
        BasePrompt.estimatedPromptCost sampleObj.originalPrompt :=
  c9_shared_request encFor0 [] sampleReq sampleObj (by decide)

theorem tokensCount_as_tokens (encFor : EncFor) (bp : BasePrompt) :
    BasePrompt.tokensCount encFor bp =
      Except.map (fun x => (x.1.length, x.2)) (BasePrompt.tokens encFor bp) := by
  unfold BasePrompt.tokensCount BasePrompt.tokens
  split
  · rfl
  · split
    · split
      · split
        · rfl
        · rfl
      · rfl
    · rfl

/-- C10: whenever `tokensCount()` and `tokens()` both succeed on the same
`BasePrompt` state, the count equals the length of the token sequence — both
are the length of the encoding of the prompt text. -/
theorem c10_count_is_length (encFor : EncFor) (bp : BasePrompt) (n : Nat)
    (bp1 : BasePrompt) (ts : List Nat) (bp2 : BasePrompt)
    (hn : BasePrompt.tokensCount encFor bp = Except.ok (n, bp1))
    (ht : BasePrompt.tokens encFor bp = Except.ok (ts, bp2)) :
    n = ts.length := by
  rw [tokensCount_as_tokens, ht] at hn
  simp only [Except.map] at hn
  injection hn with h2
  exact (congrArg Prod.fst h2).symm

/-- Witness for C10: on the "hi" prompt both calls succeed and the count is
the length of the token sequence. -/
theorem c10_witness : (2 : Nat) = ([104, 105] : List Nat).length :=
  c10_count_is_length encFor0 hiBp 2 ⟨hiReq, true⟩ [104, 105] ⟨hiReq, true⟩
    (by decide) (by decide)
